import Mathlib

/-!
Verification of the video-compressor utility (`src/compress_video.py`).

The program is embedded shallowly:

* Python floats (the probed duration, sizes in MB) are modelled as exact
  rationals `ℚ`; Python ints as `ℤ`.
* Python `int(x)` truncates toward zero (`pyTrunc`); Python `//` on ints is
  floor division (`Int.fdiv`).
* The external media engine (ffmpeg) is an oracle: an `Env` record fixes the
  probe answer and the success of each encoder invocation.  The filesystem is
  a list of `FileName`s; the orchestrator (`main`) and its two workers are
  state-passing functions that also record the trace of engine operations.
-/

namespace CompressVideo

/-- Python `int()` on a rational: truncation toward zero
(`int(x)` in `target_total_bitrate = int(target_size_bits / duration)`,
line 39, and `clip_bitrate = int(target_bits / clip_duration)`, line 123). -/
def pyTrunc (q : ℚ) : ℤ := q.num.tdiv q.den

/-- On nonnegative rationals, Python truncation agrees with the floor. -/
theorem pyTrunc_eq_floor (q : ℚ) (h : 0 ≤ q) : pyTrunc q = ⌊q⌋ := by
  have hn : 0 ≤ q.num := Rat.num_nonneg.mpr h
  rw [Rat.floor_def, pyTrunc, Int.tdiv_eq_ediv hn (Int.natCast_nonneg q.den)]

/-- Line 38: `target_size_bits = target_size_mb * 1024 * 1024 * 8`. -/
def target_size_bits (target_size_mb : ℤ) : ℤ := target_size_mb * 1024 * 1024 * 8

/-- Line 39: `target_total_bitrate = int(target_size_bits / info['duration'])`. -/
def target_total_bitrate (target_size_mb : ℤ) (duration : ℚ) : ℤ :=
  pyTrunc ((target_size_bits target_size_mb : ℚ) / duration)

/-- Line 42: `audio_bitrate = min(128000, target_total_bitrate // 10)`. -/
def audio_bitrate (target_size_mb : ℤ) (duration : ℚ) : ℤ :=
  min 128000 (Int.fdiv (target_total_bitrate target_size_mb duration) 10)

/-- Line 43: `video_bitrate = target_total_bitrate - audio_bitrate`. -/
def video_bitrate (target_size_mb : ℤ) (duration : ℚ) : ℤ :=
  target_total_bitrate target_size_mb duration - audio_bitrate target_size_mb duration

/-- Line 46: `min_acceptable_bitrate = 200000`. -/
def min_acceptable_bitrate : ℤ := 200000

/-- Floor division by ten stays below the exact quotient (used for the
audio-reservation bound). -/
theorem fdiv_ten_le_div_ten (a : ℤ) : (Int.fdiv a 10 : ℚ) ≤ (a : ℚ) / 10 := by
  rw [Int.fdiv_eq_ediv a (by norm_num)]
  have h : (10 : ℤ) * (a / 10) ≤ a := by omega
  have h2 : (10 : ℚ) * ((a / 10 : ℤ) : ℚ) ≤ (a : ℚ) := by exact_mod_cast h
  linarith

/-- Claim C1: for every durationSeconds > 0 and targetSizeMB > 0 the
full-compression bitrate plan satisfies
totalBitrate = ⌊targetSizeMB·1024·1024·8 / duration⌋,
audioBitrate = min(128000, totalBitrate // 10) (hence audioBitrate ≤ 128000
and audioBitrate ≤ totalBitrate/10), videoBitrate = totalBitrate − audioBitrate,
and videoBitrate + audioBitrate = totalBitrate. -/
theorem claim_C1_full_plan (t : ℤ) (d : ℚ) (ht : 0 < t) (hd : 0 < d) :
    target_total_bitrate t d = ⌊((t : ℚ) * 1024 * 1024 * 8) / d⌋ ∧
    audio_bitrate t d = min 128000 (Int.fdiv (target_total_bitrate t d) 10) ∧
    audio_bitrate t d ≤ 128000 ∧
    audio_bitrate t d ≤ Int.fdiv (target_total_bitrate t d) 10 ∧
    (audio_bitrate t d : ℚ) ≤ (target_total_bitrate t d : ℚ) / 10 ∧
    video_bitrate t d = target_total_bitrate t d - audio_bitrate t d ∧
    video_bitrate t d + audio_bitrate t d = target_total_bitrate t d := by
  have hbits : (0 : ℚ) < (target_size_bits t : ℚ) := by
    have : (0 : ℤ) < target_size_bits t := by
      simp only [target_size_bits]; nlinarith
    exact_mod_cast this
  have hq : (0 : ℚ) ≤ (target_size_bits t : ℚ) / d := le_of_lt (div_pos hbits hd)
  refine ⟨?_, rfl, min_le_left _ _, min_le_right _ _, ?_, rfl, ?_⟩
  · rw [target_total_bitrate, pyTrunc_eq_floor _ hq]
    congr 1
    push_cast [target_size_bits]
    ring
  · calc (audio_bitrate t d : ℚ)
        ≤ (Int.fdiv (target_total_bitrate t d) 10 : ℚ) := by
          exact_mod_cast min_le_right (128000 : ℤ) _
      _ ≤ (target_total_bitrate t d : ℚ) / 10 := fdiv_ten_le_div_ten _
  · simp [video_bitrate]

/-- Claim C1 witness at targetSizeMB = 50, duration = 600 s. -/
theorem claim_C1_full_plan_witness :
    0 < (50 : ℤ) ∧ 0 < (600 : ℚ) ∧
    (target_total_bitrate 50 600 = ⌊((50 : ℚ) * 1024 * 1024 * 8) / 600⌋ ∧
     audio_bitrate 50 600 = min 128000 (Int.fdiv (target_total_bitrate 50 600) 10) ∧
     audio_bitrate 50 600 ≤ 128000 ∧
     audio_bitrate 50 600 ≤ Int.fdiv (target_total_bitrate 50 600) 10 ∧
     (audio_bitrate 50 600 : ℚ) ≤ (target_total_bitrate 50 600 : ℚ) / 10 ∧
     video_bitrate 50 600 = target_total_bitrate 50 600 - audio_bitrate 50 600 ∧
     video_bitrate 50 600 + audio_bitrate 50 600 = target_total_bitrate 50 600) :=
  ⟨by norm_num, by norm_num, claim_C1_full_plan 50 600 (by norm_num) (by norm_num)⟩

/-- Line 108: `clip_duration = min(30, duration / num_clips)`. -/
def clip_duration (duration : ℚ) (num_clips : ℕ) : ℚ :=
  min 30 (duration / (num_clips : ℚ))

/-- Lines 113–114: `start_time = (duration / (num_clips + 1)) * (i + 1) -
(clip_duration / 2)` followed by `start_time = max(0, start_time)`. -/
def clip_start_time (duration : ℚ) (num_clips : ℕ) (i : ℕ) : ℚ :=
  max 0 ((duration / ((num_clips : ℚ) + 1)) * ((i : ℚ) + 1)
    - clip_duration duration num_clips / 2)

/-- Line 122: `target_bits = (target_size_mb * 1024 * 1024 * 8) / num_clips`. -/
def clip_target_bits (target_size_mb : ℤ) (num_clips : ℕ) : ℚ :=
  ((target_size_mb : ℚ) * 1024 * 1024 * 8) / (num_clips : ℚ)

/-- Line 123: `clip_bitrate = int(target_bits / clip_duration)`. -/
def clip_bitrate (target_size_mb : ℤ) (num_clips : ℕ) (cd : ℚ) : ℤ :=
  pyTrunc (clip_target_bits target_size_mb num_clips / cd)

/-- Line 124: `audio_bitrate = min(128000, clip_bitrate // 10)` (clip loop). -/
def clip_audio_bitrate (target_size_mb : ℤ) (num_clips : ℕ) (cd : ℚ) : ℤ :=
  min 128000 (Int.fdiv (clip_bitrate target_size_mb num_clips cd) 10)

/-- Line 125: `video_bitrate = clip_bitrate - audio_bitrate` (clip loop). -/
def clip_video_bitrate (target_size_mb : ℤ) (num_clips : ℕ) (cd : ℚ) : ℤ :=
  clip_bitrate target_size_mb num_clips cd - clip_audio_bitrate target_size_mb num_clips cd

/-- The un-clamped clip start expression is strictly positive for every clip
index when numClips = 3, because the clip duration is at most duration/3. -/
theorem clip_start_inner_pos (d : ℚ) (hd : 0 < d) (i : ℕ) :
    0 < (d / (((3 : ℕ) : ℚ) + 1)) * ((i : ℚ) + 1) - clip_duration d 3 / 2 := by
  have hc_le : clip_duration d 3 ≤ d / 3 := by
    have h3 : ((3 : ℕ) : ℚ) = 3 := by norm_num
    rw [clip_duration, h3]
    exact min_le_right _ _
  have hi : (1 : ℚ) ≤ (i : ℚ) + 1 := by
    have : (0 : ℚ) ≤ (i : ℚ) := Nat.cast_nonneg i
    linarith
  have h4 : (0 : ℚ) < d / (((3 : ℕ) : ℚ) + 1) := by
    have : ((3 : ℕ) : ℚ) + 1 = 4 := by norm_num
    rw [this]
    positivity
  have h2 : d / (((3 : ℕ) : ℚ) + 1) ≤ (d / (((3 : ℕ) : ℚ) + 1)) * ((i : ℚ) + 1) :=
    le_mul_of_one_le_right (le_of_lt h4) hi
  have h3 : ((3 : ℕ) : ℚ) + 1 = 4 := by norm_num
  rw [h3] at h2 ⊢
  linarith

/-- Claim C6: for numClips = 3 and every duration > 0, the clip start times
max(0, (duration/(numClips+1))·(i+1) − clipDuration/2) are all ≥ 0 and strictly
increasing in the clip index; for duration = 120 s they are 15 s, 45 s, 75 s. -/
theorem claim_C6_clip_starts (d : ℚ) (hd : 0 < d) :
    (∀ i : ℕ, 0 ≤ clip_start_time d 3 i) ∧
    (∀ i j : ℕ, i < j → j < 3 → clip_start_time d 3 i < clip_start_time d 3 j) ∧
    clip_start_time 120 3 0 = 15 ∧ clip_start_time 120 3 1 = 45 ∧
    clip_start_time 120 3 2 = 75 := by
  refine ⟨fun i => le_max_left _ _, fun i j hij _ => ?_, ?_, ?_, ?_⟩
  · have hi := clip_start_inner_pos d hd i
    have hj := clip_start_inner_pos d hd j
    rw [clip_start_time, clip_start_time, max_eq_right (le_of_lt hi), max_eq_right (le_of_lt hj)]
    have hijq : (i : ℚ) < (j : ℚ) := by exact_mod_cast hij
    have h4 : (0 : ℚ) < d / (((3 : ℕ) : ℚ) + 1) := by
      have h3 : ((3 : ℕ) : ℚ) + 1 = 4 := by norm_num
      rw [h3]; positivity
    have h5 := mul_lt_mul_of_pos_left (add_lt_add_right hijq 1) h4
    linarith
  all_goals norm_num [clip_start_time, clip_duration, min_def, max_def]

/-- Claim C6 witness at duration = 120 s. -/
theorem claim_C6_clip_starts_witness :
    0 < (120 : ℚ) ∧
    ((∀ i : ℕ, 0 ≤ clip_start_time 120 3 i) ∧
     (∀ i j : ℕ, i < j → j < 3 → clip_start_time 120 3 i < clip_start_time 120 3 j) ∧
     clip_start_time 120 3 0 = 15 ∧ clip_start_time 120 3 1 = 45 ∧
     clip_start_time 120 3 2 = 75) :=
  ⟨by norm_num, claim_C6_clip_starts 120 (by norm_num)⟩

/-- Claim C7: for every duration > 0 and numClips > 0 the clip duration equals
min(30, duration/numClips), hence is ≤ 30 and ≤ duration/numClips; for
duration = 120 s and numClips = 3 it is exactly 30 s. -/
theorem claim_C7_clip_duration (d : ℚ) (n : ℕ) (hd : 0 < d) (hn : 0 < n) :
    clip_duration d n = min 30 (d / (n : ℚ)) ∧
    clip_duration d n ≤ 30 ∧
    clip_duration d n ≤ d / (n : ℚ) ∧
    clip_duration 120 3 = 30 :=
  ⟨rfl, min_le_left _ _, min_le_right _ _, by norm_num [clip_duration, min_def]⟩

/-- Claim C7 witness at duration = 120 s, numClips = 3. -/
theorem claim_C7_clip_duration_witness :
    0 < (120 : ℚ) ∧ 0 < 3 ∧
    (clip_duration 120 3 = min 30 ((120 : ℚ) / ((3 : ℕ) : ℚ)) ∧
     clip_duration 120 3 ≤ 30 ∧
     clip_duration 120 3 ≤ (120 : ℚ) / ((3 : ℕ) : ℚ) ∧
     clip_duration 120 3 = 30) :=
  ⟨by norm_num, by norm_num, claim_C7_clip_duration 120 3 (by norm_num) (by norm_num)⟩

/-- Probe record built by `get_video_info` (lines 7–29): duration from
`float(probe['format']['duration'])`, stream bitrates and geometry with the
defaults of lines 17–25 (audio 128000 bps, 1920×1080).  A probe error or a
missing duration is caught at line 27 and surfaces as `none`. -/
structure MediaInfo where
  duration : ℚ
  video_bitrate : ℤ
  audio_bitrate : ℤ
  width : ℤ
  height : ℤ
deriving DecidableEq

/-- Structured names for the files the program writes or deletes; the
concrete path each one stands for is `fileNameStr`. -/
inductive FileName where
  | passLog
  | passLogMbtree
  | compressed (stem : String)
  | clip (i : ℕ)
  | other (path : String)
deriving DecidableEq

/-- Concrete path of each `FileName` (lines 91, 116 and 169 of the source). -/
def fileNameStr : FileName → String
  | .passLog => "ffmpeg2pass-0.log"
  | .passLogMbtree => "ffmpeg2pass-0.log.mbtree"
  | .compressed stem => stem ++ "_compressed.mp4"
  | .clip i => "highlight_clip_" ++ toString (i + 1) ++ ".mp4"
  | .other p => p

/-- Operations issued to the outside world: one probe or encoder invocation
per `ffmpeg.probe`/`ffmpeg.run` call, plus the `os.path.getsize` size check
of line 174. -/
inductive Op where
  | probe
  | encode_pass1
  | encode_pass2
  | size_check
  | encode_clip (i : ℕ)
deriving DecidableEq

/-- Oracle for the external media engine: the (deterministic) probe answer,
whether each `ffmpeg.run` completes or raises, the measured size in MB of the
compressed output, and per-clip encoder success. -/
structure Env where
  probe_result : Option MediaInfo
  pass1_ok : Bool
  pass2_ok : Bool
  actual_size_mb : ℚ
  clip_ok : ℕ → Bool

/-- Line 91: the two pass-log artifacts. -/
def pass_log_files : List FileName := [FileName.passLog, FileName.passLogMbtree]

/-- Lines 92–93: `if os.path.exists(f): os.remove(f)` — on the list model,
removing every occurrence (removing an absent file changes nothing). -/
def remove_file (fs : List FileName) (f : FileName) : List FileName :=
  fs.filter (fun g => g ≠ f)

/-- Result of `compress_video_to_target_size`: its return value, the final
filesystem, and the trace of engine operations it issued. -/
structure CompressResult where
  ok : Bool
  fs : List FileName
  trace : List Op

/-- Lines 31–99, `compress_video_to_target_size`.  Control flow: probe
(returning False on failure, lines 33–35); quality-floor check (lines 46–49);
Pass1 then Pass2 via `ffmpeg.run` inside one `try` (lines 51–99) whose
`except` returns False; on Pass1 success the engine leaves the two pass-log
statistics files behind, on Pass2 success the output file is written and the
cleanup loop (lines 91–93) deletes the logs.  A raising `ffmpeg.run` is
modelled as writing nothing. -/
def compress_video_to_target_size (env : Env) (target_size_mb : ℤ)
    (output : FileName) (fs : List FileName) : CompressResult :=
  match env.probe_result with
  | none => ⟨false, fs, [Op.probe]⟩
  | some info =>
    if video_bitrate target_size_mb info.duration < min_acceptable_bitrate then
      ⟨false, fs, [Op.probe]⟩
    else if env.pass1_ok then
      let fs1 := pass_log_files ++ fs
      if env.pass2_ok then
        ⟨true, pass_log_files.foldl remove_file (output :: fs1),
          [Op.probe, Op.encode_pass1, Op.encode_pass2]⟩
      else
        ⟨false, fs1, [Op.probe, Op.encode_pass1, Op.encode_pass2]⟩
    else
      ⟨false, fs, [Op.probe, Op.encode_pass1]⟩

/-- The quotient 419430400/36000 has floor 11650 (50 MB over 10 hours). -/
theorem target_total_bitrate_50_36000 : target_total_bitrate 50 36000 = 11650 := by
  rw [target_total_bitrate, pyTrunc_eq_floor _ (by norm_num [target_size_bits])]
  norm_num [target_size_bits]

/-- The quotient 419430400/600 has floor 699050 (50 MB over 10 minutes). -/
theorem target_total_bitrate_50_600 : target_total_bitrate 50 600 = 699050 := by
  rw [target_total_bitrate, pyTrunc_eq_floor _ (by norm_num [target_size_bits])]
  norm_num [target_size_bits]

/-- Full-plan video bitrate at 50 MB / 36000 s: 11650 − 1165 = 10485 bps. -/
theorem video_bitrate_50_36000 : video_bitrate 50 36000 = 10485 := by
  rw [video_bitrate, audio_bitrate, target_total_bitrate_50_36000]
  decide

/-- Full-plan video bitrate at 50 MB / 600 s: 699050 − 69905 = 629145 bps. -/
theorem video_bitrate_50_600 : video_bitrate 50 600 = 629145 := by
  rw [video_bitrate, audio_bitrate, target_total_bitrate_50_600]
  decide

/-- Claim C2: with a successful probe, full compression returns failure
without attempting any encoding exactly when the planned videoBitrate is
below the 200000 bps floor; duration 36000 s at 50 MB is rejected
(videoBitrate 10485), duration 600 s at 50 MB is accepted
(videoBitrate 629145 ≥ 200000). -/
theorem claim_C2_quality_floor (env : Env) (t : ℤ) (out : FileName)
    (fs : List FileName) (info : MediaInfo) (h : env.probe_result = some info) :
    (((compress_video_to_target_size env t out fs).ok = false ∧
      (compress_video_to_target_size env t out fs).trace = [Op.probe]) ↔
      video_bitrate t info.duration < min_acceptable_bitrate) ∧
    video_bitrate 50 36000 < min_acceptable_bitrate ∧
    ¬ video_bitrate 50 600 < min_acceptable_bitrate := by
  refine ⟨?_, ?_, ?_⟩
  · by_cases hv : video_bitrate t info.duration < min_acceptable_bitrate
    · simp [compress_video_to_target_size, h, hv]
    · rcases hp1 : env.pass1_ok with _ | _ <;>
        rcases hp2 : env.pass2_ok with _ | _ <;>
          simp [compress_video_to_target_size, h, hv, hp1, hp2]
  · rw [video_bitrate_50_36000]; decide
  · rw [video_bitrate_50_600]; decide

/-- Engine oracle: successful probe of a 600 s input, both passes succeed,
the compressed output measures `size` MB, every clip encode succeeds. -/
def happy_env (size : ℚ) : Env :=
  ⟨some ⟨600, 0, 128000, 1920, 1080⟩, true, true, size, fun _ => true⟩

/-- Engine oracle whose Pass2 invocation raises (probe and Pass1 succeed). -/
def pass2_fail_env : Env :=
  ⟨some ⟨600, 0, 128000, 1920, 1080⟩, true, false, 0, fun _ => true⟩

/-- Engine oracle whose probe fails. -/
def probe_fail_env : Env := ⟨none, true, true, 0, fun _ => true⟩

/-- Claim C2 witness: the successful 600 s oracle at 50 MB. -/
theorem claim_C2_quality_floor_witness :
    (happy_env 48).probe_result = some ⟨600, 0, 128000, 1920, 1080⟩ ∧
    ((((compress_video_to_target_size (happy_env 48) 50 (FileName.compressed "v") []).ok = false ∧
       (compress_video_to_target_size (happy_env 48) 50 (FileName.compressed "v") []).trace
         = [Op.probe]) ↔
       video_bitrate 50 (600 : ℚ) < min_acceptable_bitrate) ∧
     video_bitrate 50 36000 < min_acceptable_bitrate ∧
     ¬ video_bitrate 50 600 < min_acceptable_bitrate) :=
  ⟨rfl, claim_C2_quality_floor (happy_env 48) 50 (FileName.compressed "v") []
    ⟨600, 0, 128000, 1920, 1080⟩ rfl⟩

/-- Result of `create_highlight_clips`: the list of clips created, the final
filesystem, and the operation trace. -/
structure ClipsResult where
  clips : List FileName
  fs : List FileName
  trace : List Op

/-- One iteration of the clip loop (lines 112–144): `ffmpeg.run` is invoked
for clip `i` unconditionally; on success the clip file is written and
appended to `clips_created`, a failure is logged and skipped. -/
def clips_loop (env : Env) (r : ClipsResult) (i : ℕ) : ClipsResult :=
  if env.clip_ok i then
    ⟨r.clips ++ [FileName.clip i], r.fs ++ [FileName.clip i], r.trace ++ [Op.encode_clip i]⟩
  else
    ⟨r.clips, r.fs, r.trace ++ [Op.encode_clip i]⟩

/-- Lines 101–146, `create_highlight_clips`: probe (a failure returns the
falsy `False`, modelled as no clips, lines 103–105), then the loop
`for i in range(num_clips)`.  There is no bitrate floor anywhere: every clip
index is attempted whatever the computed clip bitrate is. -/
def create_highlight_clips (env : Env) (target_size_mb : ℤ) (num_clips : ℕ)
    (fs : List FileName) : ClipsResult :=
  match env.probe_result with
  | none => ⟨[], fs, [Op.probe]⟩
  | some _ => (List.range num_clips).foldl (clips_loop env) ⟨[], fs, [Op.probe]⟩

/-- Result of `main`: final filesystem, trace, clips produced, whether the
compressed file was accepted (the early return of line 180), and whether the
clip-fallback section (lines 184–186) ran. -/
structure MainResult where
  fs : List FileName
  trace : List Op
  clips : List FileName
  accepted : Bool
  fallback_run : Bool

/-- Lines 148–198, `main`, for an existing input file with stem `stem`.
Unless `--clips-only` is set, compression is attempted first; if it returns
True the size check of lines 174–180 runs (`1.1` is the exact rational
11/10) and acceptance returns early.  In every other case control falls
through to `create_highlight_clips` with `num_clips = 3` (the default of
line 101). -/
def main (env : Env) (target_size : ℤ) (clips_only : Bool) (stem : String)
    (fs0 : List FileName) : MainResult :=
  if clips_only then
    let r := create_highlight_clips env target_size 3 fs0
    ⟨r.fs, r.trace, r.clips, false, true⟩
  else
    let c := compress_video_to_target_size env target_size (FileName.compressed stem) fs0
    if c.ok then
      if env.actual_size_mb ≤ (target_size : ℚ) * (11 / 10) then
        ⟨c.fs, c.trace ++ [Op.size_check], [], true, false⟩
      else
        let r := create_highlight_clips env target_size 3 c.fs
        ⟨r.fs, c.trace ++ [Op.size_check] ++ r.trace, r.clips, false, true⟩
    else
      let r := create_highlight_clips env target_size 3 c.fs
      ⟨r.fs, c.trace ++ r.trace, r.clips, false, true⟩

/-- Claim C3 counterexample: probe and Pass1 succeed, Pass2 raises.  Pass2
was attempted (it is in the trace), yet both pass-log files are still on
disk afterwards — the cleanup of lines 91–93 is unreachable from the
`except` branch, so the deletion is not unconditional. -/
theorem claim_C3_counterexample :
    (compress_video_to_target_size pass2_fail_env 50 (FileName.compressed "v") []).trace
        = [Op.probe, Op.encode_pass1, Op.encode_pass2] ∧
    (compress_video_to_target_size pass2_fail_env 50 (FileName.compressed "v") []).ok = false ∧
    FileName.passLog ∈
      (compress_video_to_target_size pass2_fail_env 50 (FileName.compressed "v") []).fs ∧
    FileName.passLogMbtree ∈
      (compress_video_to_target_size pass2_fail_env 50 (FileName.compressed "v") []).fs := by
  have hv : ¬ video_bitrate 50 (600 : ℚ) < min_acceptable_bitrate := by
    rw [video_bitrate_50_600]; decide
  simp [compress_video_to_target_size, pass2_fail_env, hv, pass_log_files]

/-- Claim C3 (amended): the pass logs are deleted only on the success path —
whenever the function returns True, neither pass-log file remains. -/
theorem claim_C3_cleanup_on_success (env : Env) (t : ℤ) (out : FileName)
    (fs : List FileName)
    (h : (compress_video_to_target_size env t out fs).ok = true) :
    FileName.passLog ∉ (compress_video_to_target_size env t out fs).fs ∧
    FileName.passLogMbtree ∉ (compress_video_to_target_size env t out fs).fs := by
  rcases hp : env.probe_result with _ | info
  · simp [compress_video_to_target_size, hp] at h
  · by_cases hv : video_bitrate t info.duration < min_acceptable_bitrate
    · simp [compress_video_to_target_size, hp, hv] at h
    · rcases hp1 : env.pass1_ok with _ | _
      · simp [compress_video_to_target_size, hp, hv, hp1] at h
      · rcases hp2 : env.pass2_ok with _ | _
        · simp [compress_video_to_target_size, hp, hv, hp1, hp2] at h
        · simp [compress_video_to_target_size, hp, hv, hp1, hp2, pass_log_files,
            remove_file, List.mem_filter]

/-- Claim C3 (amended) witness: the fully successful 600 s oracle. -/
theorem claim_C3_cleanup_on_success_witness :
    (compress_video_to_target_size (happy_env 48) 50 (FileName.compressed "v") []).ok = true ∧
    (FileName.passLog ∉
       (compress_video_to_target_size (happy_env 48) 50 (FileName.compressed "v") []).fs ∧
     FileName.passLogMbtree ∉
       (compress_video_to_target_size (happy_env 48) 50 (FileName.compressed "v") []).fs) := by
  have hok : (compress_video_to_target_size (happy_env 48) 50 (FileName.compressed "v") []).ok
      = true := by
    have hv : ¬ video_bitrate 50 (600 : ℚ) < min_acceptable_bitrate := by
      rw [video_bitrate_50_600]; decide
    simp [compress_video_to_target_size, happy_env, hv]
  exact ⟨hok, claim_C3_cleanup_on_success (happy_env 48) 50 (FileName.compressed "v") [] hok⟩

/-- Claim C4 counterexample: when the probe fails, `main` does fall back —
`compress_video_to_target_size` returns False, `main` takes the fallback
branch and invokes clip extraction, whose own probe fails again (two probe
operations in the trace, fallback section reached, zero clips). -/
theorem claim_C4_counterexample :
    (main probe_fail_env 50 false "v" []).fallback_run = true ∧
    (main probe_fail_env 50 false "v" []).trace = [Op.probe, Op.probe] ∧
    (main probe_fail_env 50 false "v" []).clips = [] := by
  simp [main, compress_video_to_target_size, create_highlight_clips, probe_fail_env]

/-- Claim C4 (amended): after a probe failure the run is not terminal —
`main` still runs the clip fallback, which re-probes; since that probe fails
too, no clip is encoded and no clips are produced. -/
theorem claim_C4_probe_failure (env : Env) (t : ℤ) (stem : String)
    (fs : List FileName) (h : env.probe_result = none) :
    (main env t false stem fs).fallback_run = true ∧
    (main env t false stem fs).clips = [] ∧
    (main env t false stem fs).trace = [Op.probe, Op.probe] := by
  simp [main, compress_video_to_target_size, create_highlight_clips, h]

/-- Claim C4 (amended) witness: the failing-probe oracle. -/
theorem claim_C4_probe_failure_witness :
    probe_fail_env.probe_result = none ∧
    ((main probe_fail_env 50 false "v" []).fallback_run = true ∧
     (main probe_fail_env 50 false "v" []).clips = [] ∧
     (main probe_fail_env 50 false "v" []).trace = [Op.probe, Op.probe]) :=
  ⟨rfl, claim_C4_probe_failure probe_fail_env 50 "v" [] rfl⟩

/-- Claim C5: when compression returned True, the size check accepts exactly
when actualSize ≤ targetSizeMB·11/10 (so equality at the boundary is
accepted), and any strictly larger size sends control to the clip fallback. -/
theorem claim_C5_size_check (env : Env) (t : ℤ) (stem : String) (fs : List FileName)
    (h : (compress_video_to_target_size env t (FileName.compressed stem) fs).ok = true) :
    ((main env t false stem fs).accepted = true ↔
      env.actual_size_mb ≤ (t : ℚ) * (11 / 10)) ∧
    ((t : ℚ) * (11 / 10) < env.actual_size_mb →
      (main env t false stem fs).fallback_run = true) := by
  by_cases hs : env.actual_size_mb ≤ (t : ℚ) * (11 / 10)
  · constructor
    · simp [main, h, hs]
    · intro hlt; exact absurd hs (not_le.mpr hlt)
  · constructor
    · simp [main, h, hs]
    · intro _; simp [main, h, hs]

/-- Claim C5 witness: target 50 MB with the output measuring exactly
55 = 50·11/10 MB — the boundary case is accepted. -/
theorem claim_C5_size_check_witness :
    (compress_video_to_target_size (happy_env 55) 50 (FileName.compressed "v") []).ok = true ∧
    ((((main (happy_env 55) 50 false "v" []).accepted = true ↔
       (happy_env 55).actual_size_mb ≤ (50 : ℚ) * (11 / 10)) ∧
      ((50 : ℚ) * (11 / 10) < (happy_env 55).actual_size_mb →
       (main (happy_env 55) 50 false "v" []).fallback_run = true)) ∧
     (happy_env 55).actual_size_mb = (50 : ℚ) * (11 / 10)) := by
  have hok : (compress_video_to_target_size (happy_env 55) 50 (FileName.compressed "v") []).ok
      = true := by
    have hv : ¬ video_bitrate 50 (600 : ℚ) < min_acceptable_bitrate := by
      rw [video_bitrate_50_600]; decide
    simp [compress_video_to_target_size, happy_env, hv]
  exact ⟨hok, claim_C5_size_check (happy_env 55) 50 "v" [] hok, by norm_num [happy_env]⟩

/-- The clip loop only appends files, so it preserves filesystem membership. -/
theorem clips_loop_fs_mono (env : Env) (x : FileName) :
    ∀ (l : List ℕ) (r : ClipsResult), x ∈ r.fs → x ∈ (l.foldl (clips_loop env) r).fs := by
  intro l
  induction l with
  | nil => intro r h; simpa using h
  | cons a l ih =>
    intro r h
    simp only [List.foldl_cons]
    apply ih
    by_cases hc : env.clip_ok a <;> simp [clips_loop, hc, h]

/-- `create_highlight_clips` never deletes a file. -/
theorem create_highlight_clips_fs_mono (env : Env) (t : ℤ) (n : ℕ)
    (fs : List FileName) (x : FileName) (h : x ∈ fs) :
    x ∈ (create_highlight_clips env t n fs).fs := by
  rcases hp : env.probe_result with _ | info
  · simpa [create_highlight_clips, hp] using h
  · simp only [create_highlight_clips, hp]
    exact clips_loop_fs_mono env x _ _ h

/-- On the success path of compression, the compressed output file is on
disk (the cleanup loop deletes only the two pass logs). -/
theorem compress_output_mem (env : Env) (t : ℤ) (stem : String) (fs : List FileName)
    (h : (compress_video_to_target_size env t (FileName.compressed stem) fs).ok = true) :
    FileName.compressed stem ∈
      (compress_video_to_target_size env t (FileName.compressed stem) fs).fs := by
  rcases hp : env.probe_result with _ | info
  · simp [compress_video_to_target_size, hp] at h
  · by_cases hv : video_bitrate t info.duration < min_acceptable_bitrate
    · simp [compress_video_to_target_size, hp, hv] at h
    · rcases hp1 : env.pass1_ok with _ | _
      · simp [compress_video_to_target_size, hp, hv, hp1] at h
      · rcases hp2 : env.pass2_ok with _ | _
        · simp [compress_video_to_target_size, hp, hv, hp1, hp2] at h
        · simp [compress_video_to_target_size, hp, hv, hp1, hp2, pass_log_files,
            remove_file, List.mem_filter]

/-- Claim C8: when compression returns True but the output is strictly
oversized, `main` still runs clip extraction and the oversized
`<stem>_compressed.mp4` stays on disk, never deleted. -/
theorem claim_C8_oversized_keeps_file (env : Env) (t : ℤ) (stem : String)
    (fs : List FileName)
    (h : (compress_video_to_target_size env t (FileName.compressed stem) fs).ok = true)
    (h2 : (t : ℚ) * (11 / 10) < env.actual_size_mb) :
    (main env t false stem fs).fallback_run = true ∧
    FileName.compressed stem ∈ (main env t false stem fs).fs := by
  have hs : ¬ env.actual_size_mb ≤ (t : ℚ) * (11 / 10) := not_le.mpr h2
  constructor
  · simp [main, h, hs]
  · have hmem := compress_output_mem env t stem fs h
    have hkeep := create_highlight_clips_fs_mono env t 3 _ _ hmem
    simpa [main, h, hs] using hkeep

/-- Claim C8 witness: target 50 MB, output measuring 100 MB. -/
theorem claim_C8_oversized_keeps_file_witness :
    (compress_video_to_target_size (happy_env 100) 50 (FileName.compressed "v") []).ok = true ∧
    (50 : ℚ) * (11 / 10) < (happy_env 100).actual_size_mb ∧
    ((main (happy_env 100) 50 false "v" []).fallback_run = true ∧
     FileName.compressed "v" ∈ (main (happy_env 100) 50 false "v" []).fs) := by
  have hok : (compress_video_to_target_size (happy_env 100) 50 (FileName.compressed "v") []).ok
      = true := by
    have hv : ¬ video_bitrate 50 (600 : ℚ) < min_acceptable_bitrate := by
      rw [video_bitrate_50_600]; decide
    simp [compress_video_to_target_size, happy_env, hv]
  have hbig : (50 : ℚ) * (11 / 10) < (happy_env 100).actual_size_mb := by
    norm_num [happy_env]
  exact ⟨hok, hbig, claim_C8_oversized_keeps_file (happy_env 100) 50 "v" [] hok hbig⟩

/-- The clip loop appends exactly one `encode_clip` operation per index. -/
theorem clips_loop_trace (env : Env) :
    ∀ (l : List ℕ) (r : ClipsResult),
      (l.foldl (clips_loop env) r).trace = r.trace ++ l.map Op.encode_clip := by
  intro l
  induction l with
  | nil => intro r; simp
  | cons a l ih =>
    intro r
    simp only [List.foldl_cons, List.map_cons]
    rw [ih]
    by_cases hc : env.clip_ok a <;> simp [clips_loop, hc]

/-- With a successful probe, clip extraction issues the probe followed by one
encode per clip index, unconditionally. -/
theorem create_highlight_clips_trace (env : Env) (t : ℤ) (n : ℕ) (fs : List FileName)
    (info : MediaInfo) (h : env.probe_result = some info) :
    (create_highlight_clips env t n fs).trace =
      Op.probe :: (List.range n).map Op.encode_clip := by
  simp [create_highlight_clips, h, clips_loop_trace]

/-- Claim C9 counterexample: in clips-only mode a probe operation is still
performed (inside clip extraction), so Probing is not skipped. -/
theorem claim_C9_counterexample :
    Op.probe ∈ (main (happy_env 48) 50 true "v" []).trace := by
  rw [show (main (happy_env 48) 50 true "v" []).trace
        = (create_highlight_clips (happy_env 48) 50 3 []).trace from rfl,
    create_highlight_clips_trace (happy_env 48) 50 3 [] ⟨600, 0, 128000, 1920, 1080⟩ rfl]
  simp

/-- Claim C9 (amended): with --clips-only, `main` is exactly clip extraction —
no Pass1, Pass2 or size-check operation is ever performed — but the input is
still probed inside clip extraction. -/
theorem claim_C9_clips_only (env : Env) (t : ℤ) (stem : String) (fs : List FileName) :
    main env t true stem fs =
      ⟨(create_highlight_clips env t 3 fs).fs, (create_highlight_clips env t 3 fs).trace,
       (create_highlight_clips env t 3 fs).clips, false, true⟩ ∧
    Op.encode_pass1 ∉ (main env t true stem fs).trace ∧
    Op.encode_pass2 ∉ (main env t true stem fs).trace ∧
    Op.size_check ∉ (main env t true stem fs).trace := by
  have htr : (main env t true stem fs).trace = (create_highlight_clips env t 3 fs).trace := rfl
  refine ⟨rfl, ?_, ?_, ?_⟩ <;>
    · rw [htr]
      rcases hp : env.probe_result with _ | info
      · simp [create_highlight_clips, hp]
      · rw [create_highlight_clips_trace env t 3 fs info hp]
        simp

/-- Claim C10: the per-clip bitrate split always yields a plan: the split sums
back to the clip bitrate, the clip video bitrate is never negative, and clip
extraction proceeds to encode every clip index with no quality-floor check —
whatever the clip bitrate turns out to be. -/
theorem claim_C10_clip_plan (t : ℤ) (n : ℕ) (cd : ℚ)
    (ht : 0 < t) (hn : 0 < n) (hcd : 0 < cd) :
    clip_video_bitrate t n cd + clip_audio_bitrate t n cd = clip_bitrate t n cd ∧
    0 ≤ clip_bitrate t n cd ∧
    0 ≤ clip_video_bitrate t n cd ∧
    (∀ (env : Env) (info : MediaInfo) (fs : List FileName),
      env.probe_result = some info →
      (create_highlight_clips env t 3 fs).trace =
        [Op.probe, Op.encode_clip 0, Op.encode_clip 1, Op.encode_clip 2]) := by
  have htq : (0 : ℚ) < (t : ℚ) := by exact_mod_cast ht
  have hnq : (0 : ℚ) < (n : ℚ) := by exact_mod_cast hn
  have hb : 0 < clip_target_bits t n := by rw [clip_target_bits]; positivity
  have hq : 0 ≤ clip_target_bits t n / cd := le_of_lt (div_pos hb hcd)
  have hcb : 0 ≤ clip_bitrate t n cd := by
    rw [clip_bitrate, pyTrunc_eq_floor _ hq]
    exact Int.floor_nonneg.mpr hq
  have h1 : Int.fdiv (clip_bitrate t n cd) 10 ≤ clip_bitrate t n cd := by
    rw [Int.fdiv_eq_ediv _ (by norm_num)]
    exact Int.ediv_le_self _ hcb
  have h2 : clip_audio_bitrate t n cd ≤ clip_bitrate t n cd :=
    le_trans (min_le_right _ _) h1
  refine ⟨by simp [clip_video_bitrate], hcb, ?_, ?_⟩
  · simp only [clip_video_bitrate]
    omega
  · intro env info fs hp
    rw [create_highlight_clips_trace env t 3 fs info hp]
    simp [List.range_succ]

/-- Claim C10 witness: a 1 MB target over three 30 s clips gives a clip
bitrate of 93206 bps — far below the 200000 bps full-compression floor —
and the plan is still produced. -/
theorem claim_C10_clip_plan_witness :
    clip_bitrate 1 3 30 < min_acceptable_bitrate ∧
    0 < (1 : ℤ) ∧ 0 < 3 ∧ 0 < (30 : ℚ) ∧
    (clip_video_bitrate 1 3 30 + clip_audio_bitrate 1 3 30 = clip_bitrate 1 3 30 ∧
     0 ≤ clip_bitrate 1 3 30 ∧
     0 ≤ clip_video_bitrate 1 3 30 ∧
     (∀ (env : Env) (info : MediaInfo) (fs : List FileName),
       env.probe_result = some info →
       (create_highlight_clips env 1 3 fs).trace =
         [Op.probe, Op.encode_clip 0, Op.encode_clip 1, Op.encode_clip 2])) := by
  have hcb : clip_bitrate 1 3 30 = 93206 := by
    rw [clip_bitrate, pyTrunc_eq_floor _ (by norm_num [clip_target_bits])]
    norm_num [clip_target_bits]
  exact ⟨by rw [hcb]; decide, by norm_num, by norm_num, by norm_num,
    claim_C10_clip_plan 1 3 30 (by norm_num) (by norm_num) (by norm_num)⟩

end CompressVideo
